import Mathlib

/-!
Verification of the StarDust table-query façade (stardustlib.py).

The embedding models a pandas DataFrame as a list of column names together
with a list of rows, each row a list of cells; a cell is `none` for a
missing value (NaN) and otherwise a numeric or categorical value.  Raised
Python exceptions are modelled by `Except SDError`; methods that assign to
`self.db` return the updated `StarDust` value.
-/

namespace StardustLib

/-- A cell value: numeric (float columns) or categorical string
(the grain-type column). -/
inductive Val where
  | num (q : ℚ)
  | str (s : String)
deriving DecidableEq, Repr

/-- A table cell; `none` models a missing value (NaN), which never
satisfies a comparison and makes `isin` membership false. -/
abbrev Cell := Option Val

/-- A pandas DataFrame: named columns and rows aligned by position.
`rows` lists each row's cells in the order of `cols`. -/
structure Table where
  cols : List String
  rows : List (List Cell)
deriving DecidableEq, Repr

/-- The `StarDust` object state: `db` is the working table, `backup`
models the field `_db`, the deep copy taken at construction. -/
structure StarDust where
  db : Table
  backup : Table
deriving DecidableEq, Repr

/-- Errors raised by the Python code: `indexError` from
`iso_split[1]` when a label has no separator, `valueError` for an
invalid comparator, `keyError` for a column lookup on a missing name. -/
inductive SDError where
  | indexError
  | valueError (comparator : String)
  | keyError (hdr : String)
deriving DecidableEq, Repr

/-- `__init__`: loads the csv into `db` and keeps a deep copy in `_db`.
The parsed csv contents are the parameter `t`. -/
def StarDust.ofTable (t : Table) : StarDust := { db := t, backup := t }

/-- Python `iso.split("-")`: split a character list at every `'-'`.
Always returns a nonempty list; `"".split("-") == [""]`. -/
def splitDash : List Char → List (List Char)
  | [] => [[]]
  | c :: cs =>
    if c = '-' then [] :: splitDash cs
    else
      match splitDash cs with
      | r :: rs => (c :: r) :: rs
      | [] => [[c]]

/-- `create_db_iso`: `iso_split = iso.split("-"); iso_split[1] + iso_split[0]`.
The indexing raises IndexError (`none`) when the split has fewer than two
parts; any further parts are ignored. -/
def create_db_iso (iso : String) : Option String :=
  match splitDash iso.data with
  | p0 :: p1 :: _ => some (String.mk (p1 ++ p0))
  | _ => none

/-- `header_ratio`: look up the delta form `d(<r1>/<r2>)` in the working
table's columns first, then the raw form `<r1>/<r2>`; fall back to the
sentinel `("none", False)`.  Errors from `create_db_iso` propagate. -/
def ratio_header (sd : StarDust) (iso1 iso2 : String) :
    Except SDError (String × Bool) :=
  match create_db_iso iso1, create_db_iso iso2 with
  | some i1, some i2 =>
    let hdr_r := i1 ++ "/" ++ i2
    let hdr_d := "d(" ++ hdr_r ++ ")"
    if sd.db.cols.contains hdr_d then .ok (hdr_d, true)
    else if sd.db.cols.contains hdr_r then .ok (hdr_r, false)
    else .ok ("none", false)
  | _, _ => .error .indexError

/-- The `comp_dict` mapping from accepted comparator strings to the
operator spliced into the evaluated expression; `none` for an invalid
comparator (ValueError). -/
def comp_dict (comparator : String) : Option String :=
  if comparator = "<" then some "<"
  else if comparator = ">" then some ">"
  else if comparator = "<=" then some "<="
  else if comparator = "=<" then some "<="
  else if comparator = ">=" then some ">="
  else if comparator = "=>" then some ">="
  else if comparator = "=" then some "=="
  else none

/-- Numeric comparison `q comp v` for the operators produced by
`comp_dict`. -/
def compNum (comp : String) (q v : ℚ) : Bool :=
  if comp = "<" then decide (q < v)
  else if comp = ">" then decide (q > v)
  else if comp = "<=" then decide (q ≤ v)
  else if comp = ">=" then decide (q ≥ v)
  else if comp = "==" then decide (q = v)
  else false

/-- pandas scalar comparison of one cell against `v`: a missing value
(NaN) or a non-numeric value never satisfies the comparison, so its row
is dropped by the boolean mask. -/
def cellCmp (c : Cell) (comp : String) (v : ℚ) : Bool :=
  match c with
  | some (Val.num q) => compNum comp q v
  | _ => false

/-- Position of a column name in the schema; `none` models the KeyError
pandas raises for a missing column label. -/
def Table.colIdx (t : Table) (hdr : String) : Option ℕ :=
  t.cols.findIdx? (fun x => x = hdr)

/-- The target column name of `filter_value`: the resolved header,
wrapped as `err[...]` when filtering on errors. -/
def targetHdr (hdr0 : String) (err : Bool) : String :=
  if err then "err[" ++ hdr0 ++ "]" else hdr0

/-- `filter_value`: resolve the ratio header (wrapping it in `err[...]`
when filtering on errors), validate the comparator, then keep exactly the
rows whose cell in that column satisfies the comparison, in order. -/
def filter_value (sd : StarDust) (value : ℚ) (iso1 iso2 : String)
    (comparator : String) (err : Bool) : Except SDError StarDust :=
  match ratio_header sd iso1 iso2 with
  | .error e => .error e
  | .ok (hdr0, _) =>
    match comp_dict comparator with
    | none => .error (.valueError comparator)
    | some comp =>
      match sd.db.colIdx (targetHdr hdr0 err) with
      | none => .error (.keyError (targetHdr hdr0 err))
      | some i =>
        .ok { sd with
              db := { sd.db with
                      rows := sd.db.rows.filter
                        (fun r => cellCmp (r.getD i none) comp value) } }

/-- The argument of `filter_type`: a single string or a list of
strings. -/
inductive GrainTypeArg where
  | one (s : String)
  | many (l : List String)
deriving DecidableEq, Repr

/-- The normalization at the top of `filter_type`: a single string
becomes a one-element list. -/
def normalizeGrainType : GrainTypeArg → List String
  | .one s => [s]
  | .many l => l

/-- `filter_type`: keep the rows whose `"PGD Type"` cell is a string in
the given collection (pandas `isin`); a missing or numeric cell matches
nothing. -/
def filter_type (sd : StarDust) (grain_type : GrainTypeArg) :
    Except SDError StarDust :=
  let gt := normalizeGrainType grain_type
  match sd.db.colIdx "PGD Type" with
  | none => .error (.keyError "PGD Type")
  | some i =>
    .ok { sd with
          db := { sd.db with
                  rows := sd.db.rows.filter (fun r =>
                    match r.getD i none with
                    | some (Val.str s) => gt.contains s
                    | _ => false) } }

/-- `reset`: replace the working table by a copy of the backup. -/
def reset (sd : StarDust) : StarDust := { sd with db := sd.backup }

/-- Does every one of the four cells of a selected row hold a value?
(`dropna` keeps exactly these rows.) -/
def quadComplete (q : Cell × Cell × Cell × Cell) : Bool :=
  q.1.isSome && q.2.1.isSome && q.2.2.1.isSome && q.2.2.2.isSome

/-- `self.db[[hdr_x, hdr_y, hdr_x_err, hdr_y_err]].copy()`: the selected
four cells of every row of the table, in row order. -/
def selectQuads (t : Table) (ix iy ixe iye : ℕ) :
    List (Cell × Cell × Cell × Cell) :=
  t.rows.map (fun r =>
    (r.getD ix none, r.getD iy none, r.getD ixe none, r.getD iye none))

/-- `df.dropna(inplace=True)` followed by the four `to_numpy()` column
extractions: keep the complete rows, then project each column. -/
def dropnaCols (t : Table) (ix iy ixe iye : ℕ) :
    List Cell × List Cell × List Cell × List Cell :=
  (((selectQuads t ix iy ixe iye).filter quadComplete).map (fun q => q.1),
   ((selectQuads t ix iy ixe iye).filter quadComplete).map (fun q => q.2.1),
   ((selectQuads t ix iy ixe iye).filter quadComplete).map (fun q => q.2.2.1),
   ((selectQuads t ix iy ixe iye).filter quadComplete).map (fun q => q.2.2.2))

/-- `return_ratios`: resolve both ratio headers, derive the paired
`err[...]` columns, select the four columns from the working table into a
copy, drop incomplete rows, and return the four aligned columns.  The
state component records that `self.db` and `self._db` are never
reassigned. -/
def return_ratios (sd : StarDust) (isos1 isos2 : String × String) :
    Except SDError (StarDust × (List Cell × List Cell × List Cell × List Cell)) :=
  match ratio_header sd isos1.1 isos1.2 with
  | .error e => .error e
  | .ok (hdr_x, _) =>
    match ratio_header sd isos2.1 isos2.2 with
    | .error e => .error e
    | .ok (hdr_y, _) =>
      match sd.db.colIdx hdr_x, sd.db.colIdx hdr_y,
            sd.db.colIdx ("err[" ++ hdr_x ++ "]"),
            sd.db.colIdx ("err[" ++ hdr_y ++ "]") with
      | some ix, some iy, some ixe, some iye =>
        .ok (sd, dropnaCols sd.db ix iy ixe iye)
      | _, _, _, _ => .error (.keyError "column selection")

/-! ### Derived notions used by the specification claims -/

/-- The schema/row invariant of §3 of the spec: the working table has the
backup table's schema and its rows form an order-preserving sub-multiset
of the backup's rows. -/
def Inv (sd : StarDust) : Prop :=
  sd.db.cols = sd.backup.cols ∧ sd.db.rows.Sublist sd.backup.rows

/-- One successful filtering call on the object. -/
inductive Step : StarDust → StarDust → Prop where
  | fvalue (sd sd' : StarDust) (v : ℚ) (i1 i2 c : String) (e : Bool) :
      filter_value sd v i1 i2 c e = .ok sd' → Step sd sd'
  | ftype (sd sd' : StarDust) (g : GrainTypeArg) :
      filter_type sd g = .ok sd' → Step sd sd'

/-- The states reachable from a given state by a sequence of successful
filtering calls. -/
inductive Reaches : StarDust → StarDust → Prop where
  | refl (sd : StarDust) : Reaches sd sd
  | step {sd sd1 sd2 : StarDust} :
      Reaches sd sd1 → Step sd1 sd2 → Reaches sd sd2

/-! ### Concrete fixture used by the witnesses -/

/-- A small fixture table with the column conventions of the database
csv: a grain-type column, two ratio columns and their error columns. -/
def tW : Table :=
  { cols := ["PGD Type", "29Si/28Si", "err[29Si/28Si]",
             "30Si/28Si", "err[30Si/28Si]"],
    rows := [
      [some (.str "M"), some (.num 0.2), some (.num 0.01),
       some (.num 0.5), some (.num 0.02)],
      [some (.str "X"), some (.num 0.05), none,
       some (.num 0.3), some (.num 0.01)],
      [some (.str "M"), none, some (.num 0.01),
       some (.num 0.1), none] ] }

/-- The fixture object, as freshly constructed. -/
def sdW : StarDust := StarDust.ofTable tW

/-- A fixture whose schema holds both the delta and the raw form of the
same ratio, to exercise the resolution tie-break. -/
def tD : Table :=
  { cols := ["d(29Si/28Si)", "29Si/28Si"], rows := [] }

/-- The delta-and-raw fixture object. -/
def sdD : StarDust := StarDust.ofTable tD

/-! ### Helper lemmas -/

theorem splitDash_ne_nil (l : List Char) : splitDash l ≠ [] := by
  induction l with
  | nil => simp [splitDash]
  | cons c cs ih =>
    rw [splitDash]
    split
    · simp
    · cases h : splitDash cs with
      | nil => exact absurd h ih
      | cons r rs => simp

theorem splitDash_two_iff (l : List Char) :
    2 ≤ (splitDash l).length ↔ '-' ∈ l := by
  induction l with
  | nil => simp [splitDash]
  | cons c cs ih =>
    by_cases hc : c = '-'
    · subst hc
      have h1 : 1 ≤ (splitDash cs).length :=
        List.length_pos.mpr (splitDash_ne_nil cs)
      constructor
      · intro _; exact List.mem_cons_self _ _
      · intro _
        rw [splitDash, if_pos rfl]
        simp only [List.length_cons]
        omega
    · rw [splitDash]
      rw [if_neg hc]
      cases h : splitDash cs with
      | nil => exact absurd h (splitDash_ne_nil cs)
      | cons r rs =>
        rw [h] at ih
        simp only [List.length_cons] at ih ⊢
        simp only [List.mem_cons]
        constructor
        · intro hl; exact Or.inr (ih.mp hl)
        · intro hl
          rcases hl with hl | hl
          · exact absurd hl.symm hc
          · exact ih.mpr hl

theorem colIdx_congr {t1 t2 : Table} (h : t1.cols = t2.cols) (hdr : String) :
    t1.colIdx hdr = t2.colIdx hdr := by
  unfold Table.colIdx
  rw [h]

theorem ratio_header_congr {sd1 sd2 : StarDust}
    (h : sd1.db.cols = sd2.db.cols) (iso1 iso2 : String) :
    ratio_header sd1 iso1 iso2 = ratio_header sd2 iso1 iso2 := by
  unfold ratio_header
  rw [h]

/-- Shape of a successful `filter_value` call: the resolution, comparator
translation and column lookup all succeeded, and the result is the row
filter on the working table. -/
theorem filter_value_ok_shape {sd sd' : StarDust} {v : ℚ}
    {iso1 iso2 c : String} {e : Bool}
    (h : filter_value sd v iso1 iso2 c e = .ok sd') :
    ∃ hdr0 d comp i,
      ratio_header sd iso1 iso2 = .ok (hdr0, d) ∧
      comp_dict c = some comp ∧
      sd.db.colIdx (targetHdr hdr0 e) = some i ∧
      sd' = { sd with
              db := { sd.db with
                      rows := sd.db.rows.filter
                        (fun r => cellCmp (r.getD i none) comp v) } } := by
  unfold filter_value at h
  split at h
  · exact absurd h (by simp)
  next hdr0 d hr =>
    split at h
    · exact absurd h (by simp)
    next comp hc =>
      split at h
      · exact absurd h (by simp)
      next i hi =>
        exact ⟨hdr0, d, comp, i, hr, hc, hi, ((Except.ok.injEq _ _).mp h).symm⟩

/-- Shape of a successful `filter_type` call. -/
theorem filter_type_ok_shape {sd sd' : StarDust} {g : GrainTypeArg}
    (h : filter_type sd g = .ok sd') :
    ∃ i, sd.db.colIdx "PGD Type" = some i ∧
      sd' = { sd with
              db := { sd.db with
                      rows := sd.db.rows.filter (fun r =>
                        match r.getD i none with
                        | some (Val.str s) => (normalizeGrainType g).contains s
                        | _ => false) } } := by
  unfold filter_type at h
  split at h
  · exact absurd h (by simp)
  next i hi =>
    exact ⟨i, hi, ((Except.ok.injEq _ _).mp h).symm⟩

theorem filter_value_frame {sd sd' : StarDust} {v : ℚ}
    {iso1 iso2 c : String} {e : Bool}
    (h : filter_value sd v iso1 iso2 c e = .ok sd') :
    sd'.backup = sd.backup ∧ sd'.db.cols = sd.db.cols ∧
      sd'.db.rows.Sublist sd.db.rows := by
  obtain ⟨hdr0, d, comp, i, _, _, _, hsd⟩ := filter_value_ok_shape h
  subst hsd
  exact ⟨rfl, rfl, List.filter_sublist _⟩

theorem filter_type_frame {sd sd' : StarDust} {g : GrainTypeArg}
    (h : filter_type sd g = .ok sd') :
    sd'.backup = sd.backup ∧ sd'.db.cols = sd.db.cols ∧
      sd'.db.rows.Sublist sd.db.rows := by
  obtain ⟨i, _, hsd⟩ := filter_type_ok_shape h
  subst hsd
  exact ⟨rfl, rfl, List.filter_sublist _⟩

theorem step_backup_eq {sd sd' : StarDust} (h : Step sd sd') :
    sd'.backup = sd.backup := by
  cases h with
  | fvalue v i1 i2 c e hv => exact (filter_value_frame hv).1
  | ftype g hg => exact (filter_type_frame hg).1

theorem reaches_backup_eq {sd sd' : StarDust} (h : Reaches sd sd') :
    sd'.backup = sd.backup := by
  induction h with
  | refl => rfl
  | step _ hstep ih => exact (step_backup_eq hstep).trans ih

/-- Shape of a successful `return_ratios` call. -/
theorem return_ratios_ok_shape {sd sd' : StarDust} {isos1 isos2 : String × String}
    {out : List Cell × List Cell × List Cell × List Cell}
    (h : return_ratios sd isos1 isos2 = .ok (sd', out)) :
    sd' = sd ∧
    ∃ hdr_x dx hdr_y dy ix iy ixe iye,
      ratio_header sd isos1.1 isos1.2 = .ok (hdr_x, dx) ∧
      ratio_header sd isos2.1 isos2.2 = .ok (hdr_y, dy) ∧
      sd.db.colIdx hdr_x = some ix ∧ sd.db.colIdx hdr_y = some iy ∧
      sd.db.colIdx ("err[" ++ hdr_x ++ "]") = some ixe ∧
      sd.db.colIdx ("err[" ++ hdr_y ++ "]") = some iye ∧
      out = dropnaCols sd.db ix iy ixe iye := by
  unfold return_ratios at h
  split at h
  · exact absurd h (by simp)
  next hdr_x dx hrx =>
    split at h
    · exact absurd h (by simp)
    next hdr_y dy hry =>
      split at h
      next ix iy ixe iye hix hiy hixe hiye =>
        have hp := (Except.ok.injEq _ _).mp h
        have h1 : sd' = sd := (congrArg Prod.fst hp).symm
        have h2 : out = dropnaCols sd.db ix iy ixe iye :=
          (congrArg Prod.snd hp).symm
        exact ⟨h1, hdr_x, dx, hdr_y, dy, ix, iy, ixe, iye,
               hrx, hry, hix, hiy, hixe, hiye, h2⟩
      next hfail => exact absurd h (by simp)

/-- Computation rule for a successful `filter_value` call with explicit
resolution, comparator and column-lookup facts. -/
theorem filter_value_eq_ok {sd : StarDust} {v : ℚ} {iso1 iso2 c : String}
    {e : Bool} {hdr0 : String} {d : Bool} {comp : String} {i : ℕ}
    (hr : ratio_header sd iso1 iso2 = .ok (hdr0, d))
    (hc : comp_dict c = some comp)
    (hi : sd.db.colIdx (targetHdr hdr0 e) = some i) :
    filter_value sd v iso1 iso2 c e =
      .ok { sd with
            db := { sd.db with
                    rows := sd.db.rows.filter
                      (fun r => cellCmp (r.getD i none) comp v) } } := by
  simp only [filter_value, hr, hc, hi]

/-- A row kept by `dropna` has a value in each of the four cells. -/
theorem quadComplete_parts {q : Cell × Cell × Cell × Cell}
    (h : quadComplete q = true) :
    q.1.isSome = true ∧ q.2.1.isSome = true ∧ q.2.2.1.isSome = true ∧
      q.2.2.2.isSome = true := by
  simp only [quadComplete, Bool.and_eq_true] at h
  exact ⟨h.1.1.1, h.1.1.2, h.1.2, h.2⟩

/-- The fixture after one value filter (the payload of the `.ok`). -/
def sdW1 : StarDust :=
  (filter_value sdW 0.1 "Si-29" "Si-28" ">" false).toOption.getD sdW

/-! ### Claim theorems -/

/-- Claim C1: for every valid comparator `c` and value `v`, after
`filter_value(v, iso1, iso2, c)` on a table whose schema resolves the
isotope pair to a column, the working table contains exactly the rows of
the previous working table whose target-column cell satisfies the
comparison against `v`, and rows with a missing target-column value are
excluded, since a missing value never satisfies a comparison. -/
theorem filter_value_filters_rows (sd : StarDust) (v : ℚ)
    (iso1 iso2 c : String) (e : Bool) (hdr0 : String) (d : Bool)
    (comp : String) (i : ℕ)
    (hr : ratio_header sd iso1 iso2 = .ok (hdr0, d))
    (hc : comp_dict c = some comp)
    (hi : sd.db.colIdx (targetHdr hdr0 e) = some i) :
    ∃ sd', filter_value sd v iso1 iso2 c e = .ok sd' ∧
      sd'.db.rows = sd.db.rows.filter
        (fun r => cellCmp (r.getD i none) comp v) ∧
      (∀ r, r ∈ sd'.db.rows ↔
        r ∈ sd.db.rows ∧ cellCmp (r.getD i none) comp v = true) ∧
      (∀ r ∈ sd'.db.rows,
        ∃ q, r.getD i none = some (Val.num q) ∧ compNum comp q v = true) := by
  refine ⟨_, filter_value_eq_ok hr hc hi, rfl, fun r => List.mem_filter, ?_⟩
  intro r hmem
  have hcmp : cellCmp (r.getD i none) comp v = true :=
    (List.mem_filter.mp hmem).2
  cases hcell : r.getD i none with
  | none => rw [hcell] at hcmp; exact absurd hcmp (by simp [cellCmp])
  | some val =>
    cases val with
    | num q => rw [hcell] at hcmp; exact ⟨q, rfl, hcmp⟩
    | str s => rw [hcell] at hcmp; exact absurd hcmp (by simp [cellCmp])

/-- Claim C1 witness: the fixture filtered with `> 0.1` on the ratio
column at index 1. -/
theorem filter_value_filters_rows_witness :
    ∃ sd', filter_value sdW 0.1 "Si-29" "Si-28" ">" false = .ok sd' ∧
      sd'.db.rows = sdW.db.rows.filter
        (fun r => cellCmp (r.getD 1 none) ">" 0.1) ∧
      (∀ r, r ∈ sd'.db.rows ↔
        r ∈ sdW.db.rows ∧ cellCmp (r.getD 1 none) ">" 0.1 = true) ∧
      (∀ r ∈ sd'.db.rows,
        ∃ q, r.getD 1 none = some (Val.num q) ∧ compNum ">" q 0.1 = true) :=
  filter_value_filters_rows sdW 0.1 "Si-29" "Si-28" ">" false
    "29Si/28Si" false ">" 1 rfl rfl rfl

/-- Claim C3: `header_ratio` converts both labels with `create_db_iso`,
forms the raw candidate and the delta candidate, prefers the delta form
when it is a column of the working table, falls back to the raw form, and
otherwise returns the sentinel `("none", false)` without an error; being
a pure function of the state, it has no side effect on the tables. -/
theorem ratio_header_resolution (sd : StarDust) (iso1 iso2 a b : String)
    (h1 : create_db_iso iso1 = some a) (h2 : create_db_iso iso2 = some b) :
    (("d(" ++ (a ++ "/" ++ b) ++ ")") ∈ sd.db.cols →
      ratio_header sd iso1 iso2 = .ok ("d(" ++ (a ++ "/" ++ b) ++ ")", true)) ∧
    (("d(" ++ (a ++ "/" ++ b) ++ ")") ∉ sd.db.cols →
      (a ++ "/" ++ b) ∈ sd.db.cols →
      ratio_header sd iso1 iso2 = .ok (a ++ "/" ++ b, false)) ∧
    (("d(" ++ (a ++ "/" ++ b) ++ ")") ∉ sd.db.cols →
      (a ++ "/" ++ b) ∉ sd.db.cols →
      ratio_header sd iso1 iso2 = .ok ("none", false)) := by
  refine ⟨fun hd => ?_, fun hd hraw => ?_, fun hd hraw => ?_⟩
  · simp [ratio_header, h1, h2, hd]
  · simp [ratio_header, h1, h2, hd, hraw]
  · simp [ratio_header, h1, h2, hd, hraw]

/-- Claim C3 witness: on a schema holding both `d(29Si/28Si)` and
`29Si/28Si`, the delta form wins the tie-break. -/
theorem ratio_header_resolution_witness :
    ratio_header sdD "Si-29" "Si-28" = .ok ("d(" ++ ("29Si" ++ "/" ++ "28Si") ++ ")", true) :=
  (ratio_header_resolution sdD "Si-29" "Si-28" "29Si" "28Si" rfl rfl).1 (by decide)

/-- Claim C7: `filter_value` accepts exactly the comparators `<`, `>`,
`<=`, `=<` (alias for `<=`), `>=`, `=>` (alias for `>=`) and `=` (meaning
equality); for any other comparator string it fails with the
invalid-comparator ValueError, producing no new state, so the working
table is unchanged. -/
theorem comparator_validation :
    (∀ c : String, (comp_dict c).isSome = true ↔
      c ∈ ["<", ">", "<=", "=<", ">=", "=>", "="]) ∧
    (comp_dict "=<" = some "<=" ∧ comp_dict "=>" = some ">=" ∧
      comp_dict "=" = some "==") ∧
    (∀ (sd : StarDust) (v : ℚ) (i1 i2 c : String) (e : Bool)
      (p : String × Bool), ratio_header sd i1 i2 = .ok p →
      comp_dict c = none →
      filter_value sd v i1 i2 c e = .error (.valueError c)) := by
  refine ⟨?_, ⟨rfl, rfl, rfl⟩, ?_⟩
  · intro c
    unfold comp_dict
    split_ifs with h1 h2 h3 h4 h5 h6 h7 <;> simp_all
  · intro sd v i1 i2 c e p hr hc
    obtain ⟨p1, p2⟩ := p
    simp [filter_value, hr, hc]

/-- Claim C7 witness: the unknown comparator string is rejected with a
ValueError on the fixture. -/
theorem comparator_validation_witness :
    filter_value sdW 0.1 "Si-29" "Si-28" "bogus" false =
      .error (.valueError "bogus") :=
  comparator_validation.2.2 sdW 0.1 "Si-29" "Si-28" "bogus" false
    ("29Si/28Si", false) rfl rfl

/-- Claim C8 counterexample: `create_db_iso` does not fail on a label
with two separators, nor on a label with an empty part; it silently
returns the concatenation of the first two split parts, contradicting the
claimed FormatError contract. -/
theorem create_db_iso_accepts_malformed :
    create_db_iso "Si-28-X" = some "28Si" ∧ create_db_iso "Si-28-X" ≠ none ∧
      create_db_iso "Si-" = some "Si" ∧ create_db_iso "-28" = some "28" :=
  ⟨rfl, by decide, rfl, rfl⟩

/-- Claim C8 (amended): `create_db_iso` fails (an IndexError from the
`iso_split[1]` lookup) exactly when the label contains no separator at
all; any label containing a separator succeeds, even with empty parts or
extra separators, and a well-formed label `<Element>-<MassNumber>` yields
`MassNumber ++ Element`. -/
theorem create_db_iso_behavior :
    (∀ iso : String, create_db_iso iso = none ↔ '-' ∉ iso.data) ∧
    create_db_iso "Si-28" = some "28Si" ∧ create_db_iso "C-12" = some "12C" := by
  refine ⟨?_, rfl, rfl⟩
  intro iso
  rw [← splitDash_two_iff]
  unfold create_db_iso
  cases h : splitDash iso.data with
  | nil => exact absurd h (splitDash_ne_nil _)
  | cons p0 ps =>
    cases ps with
    | nil => simp
    | cons p1 rest => simp

/-- Claim C9: `return_ratios` does not mutate the object: a successful
call leaves both the working table and the backup table exactly as they
were, the complete-case dropping happening on a copy. -/
theorem return_ratios_no_mutation (sd sd' : StarDust)
    (p1 p2 : String × String)
    (out : List Cell × List Cell × List Cell × List Cell)
    (h : return_ratios sd p1 p2 = .ok (sd', out)) :
    sd'.db = sd.db ∧ sd'.backup = sd.backup := by
  have heq := (return_ratios_ok_shape h).1
  subst heq
  exact ⟨rfl, rfl⟩

/-- Claim C9 witness: the extraction on the fixture returns the state
unchanged. -/
theorem return_ratios_no_mutation_witness :
    sdW.db = sdW.db ∧ sdW.backup = sdW.backup :=
  return_ratios_no_mutation sdW sdW ("Si-29", "Si-28") ("Si-30", "Si-28")
    ([some (.num 0.2)], [some (.num 0.5)], [some (.num 0.01)],
     [some (.num 0.02)]) rfl

/-- Claim C10: the two filters only remove rows: after a successful call
the working table's rows form a sublist of the previous rows — every
surviving row occurrence was present before, none is duplicated, and the
relative order is preserved. -/
theorem filters_only_remove_rows :
    (∀ (sd sd' : StarDust) (v : ℚ) (i1 i2 c : String) (e : Bool),
      filter_value sd v i1 i2 c e = .ok sd' →
      sd'.db.rows.Sublist sd.db.rows) ∧
    (∀ (sd sd' : StarDust) (g : GrainTypeArg),
      filter_type sd g = .ok sd' → sd'.db.rows.Sublist sd.db.rows) :=
  ⟨fun _ _ _ _ _ _ _ h => (filter_value_frame h).2.2,
   fun _ _ _ h => (filter_type_frame h).2.2⟩

/-- Claim C10 witness: the rows after the fixture filter are a sublist of
the fixture's rows. -/
theorem filters_only_remove_rows_witness :
    sdW1.db.rows.Sublist sdW.db.rows :=
  filters_only_remove_rows.1 sdW sdW1 0.1 "Si-29" "Si-28" ">" false rfl

/-- Claim C2: at construction and after every operation, the working
table has the backup table's column schema and its rows are a
(narrower or equal) sub-multiset of the backup's rows in order:
construction establishes the invariant and `filter_value`,
`filter_type`, `reset` and `return_ratios` each preserve it. -/
theorem schema_subset_invariant :
    (∀ t : Table, Inv (StarDust.ofTable t)) ∧
    (∀ (sd sd' : StarDust) (v : ℚ) (i1 i2 c : String) (e : Bool),
      Inv sd → filter_value sd v i1 i2 c e = .ok sd' → Inv sd') ∧
    (∀ (sd sd' : StarDust) (g : GrainTypeArg),
      Inv sd → filter_type sd g = .ok sd' → Inv sd') ∧
    (∀ sd : StarDust, Inv sd → Inv (reset sd)) ∧
    (∀ (sd sd' : StarDust) (p1 p2 : String × String)
      (out : List Cell × List Cell × List Cell × List Cell),
      Inv sd → return_ratios sd p1 p2 = .ok (sd', out) → Inv sd') := by
  refine ⟨?_, ?_, ?_, ?_, ?_⟩
  · intro t
    exact ⟨rfl, List.Sublist.refl _⟩
  · intro sd sd' v i1 i2 c e hInv h
    obtain ⟨hb, hcols, hrows⟩ := filter_value_frame h
    refine ⟨by rw [hcols, hb]; exact hInv.1, ?_⟩
    rw [hb]
    exact hrows.trans hInv.2
  · intro sd sd' g hInv h
    obtain ⟨hb, hcols, hrows⟩ := filter_type_frame h
    refine ⟨by rw [hcols, hb]; exact hInv.1, ?_⟩
    rw [hb]
    exact hrows.trans hInv.2
  · intro sd _
    exact ⟨rfl, List.Sublist.refl _⟩
  · intro sd sd' p1 p2 out hInv h
    have heq := (return_ratios_ok_shape h).1
    subst heq
    exact hInv

/-- Claim C2 witness: the invariant holds for the fixture after
construction and one filter. -/
theorem schema_subset_invariant_witness : Inv sdW1 :=
  schema_subset_invariant.2.1 sdW sdW1 0.1 "Si-29" "Si-28" ">" false
    (schema_subset_invariant.1 tW) rfl

/-- Claim C4: after any sequence of successful filtering calls starting
from construction, `reset` restores the exact state present immediately
after construction (in particular the exact original row set), is
idempotent, and — being a total function — always succeeds. -/
theorem reset_restores_construction (t : Table) (sd : StarDust)
    (h : Reaches (StarDust.ofTable t) sd) :
    reset sd = StarDust.ofTable t ∧ (reset sd).db.rows = t.rows ∧
      reset (reset sd) = reset sd := by
  have hb : sd.backup = (StarDust.ofTable t).backup := reaches_backup_eq h
  have h1 : reset sd = StarDust.ofTable t := by
    unfold reset StarDust.ofTable at hb ⊢
    rw [hb]
  exact ⟨h1, by rw [h1]; rfl, by rw [h1]; rfl⟩

/-- Claim C4 witness: resetting the fixture after one filtering step
restores the constructed state. -/
theorem reset_restores_construction_witness :
    reset sdW1 = StarDust.ofTable tW ∧ (reset sdW1).db.rows = tW.rows ∧
      reset (reset sdW1) = reset sdW1 :=
  reset_restores_construction tW sdW1
    (Reaches.step (Reaches.refl sdW)
      (Step.fvalue sdW sdW1 0.1 "Si-29" "Si-28" ">" false rfl))

/-- Claim C5: filtering is cumulative: two successive `filter_value`
calls on resolvable columns narrow the working table to exactly the rows
of the original working table satisfying the conjunction of the two
conditions, because the second call filters the current state. -/
theorem filter_value_cumulative (sd : StarDust) (vA vB : ℚ)
    (i1A i2A i1B i2B cA cB : String) (eA eB : Bool)
    (hdrA hdrB : String) (dA dB : Bool) (compA compB : String) (iA iB : ℕ)
    (hrA : ratio_header sd i1A i2A = .ok (hdrA, dA))
    (hcA : comp_dict cA = some compA)
    (hiA : sd.db.colIdx (targetHdr hdrA eA) = some iA)
    (hrB : ratio_header sd i1B i2B = .ok (hdrB, dB))
    (hcB : comp_dict cB = some compB)
    (hiB : sd.db.colIdx (targetHdr hdrB eB) = some iB) :
    ∃ sd1 sd2,
      filter_value sd vA i1A i2A cA eA = .ok sd1 ∧
      filter_value sd1 vB i1B i2B cB eB = .ok sd2 ∧
      sd2.db.rows = sd.db.rows.filter
        (fun r => cellCmp (r.getD iA none) compA vA &&
                  cellCmp (r.getD iB none) compB vB) := by
  refine ⟨_, _, filter_value_eq_ok hrA hcA hiA,
    filter_value_eq_ok ((ratio_header_congr rfl i1B i2B).trans hrB) hcB hiB, ?_⟩
  show (sd.db.rows.filter _).filter _ = _
  rw [List.filter_filter]
  congr 1
  funext r
  exact Bool.and_comm _ _

/-- Claim C5 witness: two filters on the fixture equal the single
conjunction filter. -/
theorem filter_value_cumulative_witness :
    ∃ sd1 sd2,
      filter_value sdW 0.1 "Si-29" "Si-28" ">" false = .ok sd1 ∧
      filter_value sd1 0.4 "Si-30" "Si-28" "<" false = .ok sd2 ∧
      sd2.db.rows = sdW.db.rows.filter
        (fun r => cellCmp (r.getD 1 none) ">" 0.1 &&
                  cellCmp (r.getD 3 none) "<" 0.4) :=
  filter_value_cumulative sdW 0.1 0.4 "Si-29" "Si-28" "Si-30" "Si-28"
    ">" "<" false false "29Si/28Si" "30Si/28Si" false false ">" "<" 1 3
    rfl rfl rfl rfl rfl rfl

/-- Claim C6: `return_ratios` resolves the two ratio columns, wraps each
in the `err[...]` form, selects the four columns, drops every row with at
least one missing value among the four, and returns four equal-length
sequences aligned by row in the order x, y, x-error, y-error, with no
missing value in any returned cell. -/
theorem return_ratios_complete_cases (sd : StarDust) (p1 p2 : String × String)
    (hdr_x hdr_y : String) (dx dy : Bool) (ix iy ixe iye : ℕ)
    (hrx : ratio_header sd p1.1 p1.2 = .ok (hdr_x, dx))
    (hry : ratio_header sd p2.1 p2.2 = .ok (hdr_y, dy))
    (hix : sd.db.colIdx hdr_x = some ix)
    (hiy : sd.db.colIdx hdr_y = some iy)
    (hixe : sd.db.colIdx ("err[" ++ hdr_x ++ "]") = some ixe)
    (hiye : sd.db.colIdx ("err[" ++ hdr_y ++ "]") = some iye) :
    ∃ xs ys xe ye,
      return_ratios sd p1 p2 = .ok (sd, (xs, ys, xe, ye)) ∧
      xs = ((selectQuads sd.db ix iy ixe iye).filter quadComplete).map
        (fun q => q.1) ∧
      ys = ((selectQuads sd.db ix iy ixe iye).filter quadComplete).map
        (fun q => q.2.1) ∧
      xe = ((selectQuads sd.db ix iy ixe iye).filter quadComplete).map
        (fun q => q.2.2.1) ∧
      ye = ((selectQuads sd.db ix iy ixe iye).filter quadComplete).map
        (fun q => q.2.2.2) ∧
      xs.length = ys.length ∧ ys.length = xe.length ∧
      xe.length = ye.length ∧
      (∀ cl ∈ xs, cl.isSome = true) ∧ (∀ cl ∈ ys, cl.isSome = true) ∧
      (∀ cl ∈ xe, cl.isSome = true) ∧ (∀ cl ∈ ye, cl.isSome = true) := by
  have hok : return_ratios sd p1 p2 =
      .ok (sd, dropnaCols sd.db ix iy ixe iye) := by
    simp only [return_ratios, hrx, hry, hix, hiy, hixe, hiye]
  refine ⟨_, _, _, _, hok, rfl, rfl, rfl, rfl,
    by simp, by simp, by simp, ?_, ?_, ?_, ?_⟩ <;>
  · intro cl hm
    obtain ⟨q, hq, hql⟩ := List.mem_map.mp hm
    have hc := quadComplete_parts (List.mem_filter.mp hq).2
    subst hql
    first
      | exact hc.1
      | exact hc.2.1
      | exact hc.2.2.1
      | exact hc.2.2.2

/-- Claim C6 witness: the extraction on the fixture, with the four
resolved column indices. -/
theorem return_ratios_complete_cases_witness :
    ∃ xs ys xe ye,
      return_ratios sdW ("Si-29", "Si-28") ("Si-30", "Si-28") =
        .ok (sdW, (xs, ys, xe, ye)) ∧
      xs = ((selectQuads sdW.db 1 3 2 4).filter quadComplete).map
        (fun q => q.1) ∧
      ys = ((selectQuads sdW.db 1 3 2 4).filter quadComplete).map
        (fun q => q.2.1) ∧
      xe = ((selectQuads sdW.db 1 3 2 4).filter quadComplete).map
        (fun q => q.2.2.1) ∧
      ye = ((selectQuads sdW.db 1 3 2 4).filter quadComplete).map
        (fun q => q.2.2.2) ∧
      xs.length = ys.length ∧ ys.length = xe.length ∧
      xe.length = ye.length ∧
      (∀ cl ∈ xs, cl.isSome = true) ∧ (∀ cl ∈ ys, cl.isSome = true) ∧
      (∀ cl ∈ xe, cl.isSome = true) ∧ (∀ cl ∈ ye, cl.isSome = true) :=
  return_ratios_complete_cases sdW ("Si-29", "Si-28") ("Si-30", "Si-28")
    "29Si/28Si" "30Si/28Si" false false 1 3 2 4 rfl rfl rfl rfl rfl rfl

end StardustLib
